import Mathlib

/-!
Shallow embedding of the tracing module `lib/tracing` of trace-poc
(`withSpan`, `autoTrace`, and the semantic helpers `db.query`, `api.call`,
`component.process`).

The embedding records the observable behaviour of one invocation of the
span runner as a pair of
  * a trace: the ordered list of provider/bookkeeping events that the
    invocation performs (span start, attribute assignment, the call of the
    wrapped operation, status setting, exception recording, span end,
    the return of control to the caller, and — for the asynchronous path —
    the settlement of the operation's native promise), and
  * the caller-visible result (a synchronous return or throw, or the
    settlement of the promise handed back to the caller).
Values and errors are type parameters `V` and `E`, so "the very same value"
is expressed as equality at an abstract type; the JavaScript `error.message`
access is modelled by an explicit `msg : E → String` parameter.
-/

namespace TracePoc

/-- Scalar attribute values (`string | number | boolean` in the source). -/
inductive Scalar where
  | str (s : String)
  | num (n : Int)
  | bool (b : Bool)
deriving DecidableEq, Repr

/-- An attribute set, in insertion order, as built by the helpers. -/
abbrev Attrs := List (String × Scalar)

/-- How a (native or foreign) promise eventually settles. -/
inductive Settlement (V E : Type) where
  | fulfilled (v : V)
  | rejected (e : E)
deriving DecidableEq, Repr

/-- The value `fn()` returns when it does not throw: a plain value, a
foreign thenable (promise-like but NOT `instanceof Promise`), or a native
`Promise`.  Only the last satisfies the source's `result instanceof Promise`
test. -/
inductive JSValue (V E : Type) where
  | plain (v : V)
  | thenable (s : Settlement V E)
  | nativePromise (s : Settlement V E)
deriving DecidableEq, Repr

/-- The outcome of calling the wrapped operation `fn` exactly once. -/
inductive FnResult (V E : Type) where
  | returns (x : JSValue V E)
  | throws (e : E)
deriving DecidableEq, Repr

/-- Observable events of one `withSpan` invocation, in program order. -/
inductive Ev (V E : Type) where
  | startActiveSpan (name : String)
  | setAttributes (attrs : Attrs)
  | callFn
  | returnControl
  | promiseSettled (s : Settlement V E)
  | setStatusOK
  | setStatusError (message : String)
  | recordException (e : E)
  | endSpan
deriving DecidableEq, Repr

/-- The caller-visible result of `withSpan`. -/
inductive RunnerResult (V E : Type) where
  | syncReturn (x : JSValue V E)
  | syncThrow (e : E)
  | asyncFulfilled (v : V)
  | asyncRejected (e : E)
deriving DecidableEq, Repr

/-- The common preamble of every `withSpan` invocation: span start,
attribute assignment when attributes were given, then the call of `fn`. -/
def preTrace {V E : Type} (name : String) (attributes : Option Attrs) :
    List (Ev V E) :=
  Ev.startActiveSpan name ::
    ((match attributes with
      | some a => [Ev.setAttributes a]
      | none => []) ++ [Ev.callFn])

/-- `withSpan(name, fn, attributes?)` from `lib/tracing`:
starts an active span, sets the attributes when given, runs `fn` once and
  * on a synchronous throw: sets status ERROR with `error.message`, records
    the exception, ends the span and re-throws the same error;
  * on a native promise: returns the chained promise at once and, when the
    promise settles, sets status OK and ends (fulfilment) or sets status
    ERROR with the message, records the exception, ends and re-rejects
    (rejection);
  * on any other value (plain or foreign thenable): sets status OK, ends
    the span and returns the value unchanged. -/
def withSpan {V E : Type} (name : String) (msg : E → String)
    (attributes : Option Attrs) (fn : FnResult V E) :
    List (Ev V E) × RunnerResult V E :=
  let pre : List (Ev V E) := preTrace name attributes
  match fn with
  | .throws e =>
      (pre ++ [Ev.setStatusError (msg e), Ev.recordException e, Ev.endSpan,
               Ev.returnControl],
       .syncThrow e)
  | .returns (.nativePromise (.fulfilled v)) =>
      (pre ++ [Ev.returnControl, Ev.promiseSettled (.fulfilled v),
               Ev.setStatusOK, Ev.endSpan],
       .asyncFulfilled v)
  | .returns (.nativePromise (.rejected e)) =>
      (pre ++ [Ev.returnControl, Ev.promiseSettled (.rejected e),
               Ev.setStatusError (msg e), Ev.recordException e, Ev.endSpan],
       .asyncRejected e)
  | .returns x =>
      (pre ++ [Ev.setStatusOK, Ev.endSpan, Ev.returnControl], .syncReturn x)

/-- Is this event the ending of the span? -/
def isEnd {V E : Type} : Ev V E → Bool
  | .endSpan => true
  | _ => false

/-- Is this event the settlement of the operation's native promise? -/
def isSettled {V E : Type} : Ev V E → Bool
  | .promiseSettled _ => true
  | _ => false

/-- Is this event the return of control to the caller? -/
def isReturn {V E : Type} : Ev V E → Bool
  | .returnControl => true
  | _ => false

/-- Number of times the span is ended along a trace. -/
def endCount {V E : Type} (tr : List (Ev V E)) : Nat :=
  (tr.filter isEnd).length

/-- Terminal status of the span: the last status set along the trace. -/
inductive SpanStatus where
  | unset
  | ok
  | error (message : String)
deriving DecidableEq, Repr

/-- Fold the trace to the span's final status. -/
def finalStatus {V E : Type} (tr : List (Ev V E)) : SpanStatus :=
  tr.foldl
    (fun st ev =>
      match ev with
      | .setStatusOK => SpanStatus.ok
      | .setStatusError m => SpanStatus.error m
      | _ => st)
    SpanStatus.unset

/-- `fn.name || 'anonymous'`: an anonymous callable has runtime name `""`,
which is falsy, so the literal `"anonymous"` is used instead. -/
def nameOrAnonymous (fnName : String) : String :=
  if fnName = "" then "anonymous" else fnName

/-- The span name derived by `autoTrace`:
`options?.prefix ? prefix + "." + (fn.name || 'anonymous') : fn.name || 'anonymous'`.
Note the condition is the truthiness of the prefix, so an empty-string
prefix behaves like an absent one. -/
def autoTraceSpanName (pfx : Option String) (fnName : String) : String :=
  match pfx with
  | some p =>
      if p = "" then nameOrAnonymous fnName
      else p ++ "." ++ nameOrAnonymous fnName
  | none => nameOrAnonymous fnName

/-- `autoTrace(fn, options?)` applied to arguments: delegates to `withSpan`
with the derived span name and `options?.attributes`. -/
def autoTrace {V E : Type} (fnName : String) (pfx : Option String)
    (attributes : Option Attrs) (msg : E → String) (fn : FnResult V E) :
    List (Ev V E) × RunnerResult V E :=
  withSpan (autoTraceSpanName pfx fnName) msg attributes fn

/-- The attribute object built by `db.query`: the conditional expression
`statement ? { 'db.system': ..., 'db.statement': statement } : { 'db.system': ... }`.
The condition is the truthiness of `statement`, so an empty string counts
as absent. -/
def dbQueryAttrs (statement : Option String) : Attrs :=
  match statement with
  | some s =>
      if s = "" then [("db.system", Scalar.str "postgresql")]
      else [("db.system", Scalar.str "postgresql"),
            ("db.statement", Scalar.str s)]
  | none => [("db.system", Scalar.str "postgresql")]

/-- `db.query(operation, statement?)`: `withSpan('db.query', operation, attrs)`. -/
def dbQuery {V E : Type} (msg : E → String) (fn : FnResult V E)
    (statement : Option String) : List (Ev V E) × RunnerResult V E :=
  withSpan "db.query" msg (some (dbQueryAttrs statement)) fn

/-- Modelled platform builtin (not repository code): the hostname extraction
of the WHATWG `new URL(url)` constructor, restricted to what `api.call`
needs.  A URL is well formed here when it has a non-empty scheme followed by
`://` and a non-empty host; the hostname is the authority up to the first
`/`, `:`, `?` or `#`.  `none` models the constructor throwing a descriptive
`TypeError` on a malformed URL. -/
def parseHostname (url : String) : Option String :=
  match url.splitOn "://" with
  | scheme :: restParts =>
      if restParts.isEmpty ∨ scheme = "" then none
      else
        let rest := String.intercalate "://" restParts
        let host := rest.takeWhile fun c =>
          !(c == '/' || c == ':' || c == '?' || c == '#')
        if host = "" then none else some host
  | [] => none

/-- `api.call(operation, url, method = 'GET')`.  The attribute object —
including `new URL(url).hostname` — is evaluated before `withSpan` is
entered, so a malformed URL throws (modelled by `Except.error` carrying the
`TypeError` message) before any span work and before the operation runs. -/
def apiCall {V E : Type} (msg : E → String) (fn : FnResult V E)
    (url : String) (method : String) :
    Except String (List (Ev V E) × RunnerResult V E) :=
  match parseHostname url with
  | none => Except.error ("Invalid URL: " ++ url)
  | some host =>
      Except.ok (withSpan "external.api.call" msg
        (some [("http.method", Scalar.str method),
               ("http.url", Scalar.str url),
               ("net.peer.name", Scalar.str host)]) fn)

/-- The attribute object built by `component.process`:
`{ ...(type && { 'processing.type': type }),
   ...(recordCount !== undefined && { 'processing.record_count': recordCount }) }`.
The first spread is guarded by the truthiness of `type` (empty string
dropped); the second by `recordCount !== undefined` (zero kept). -/
def processAttrs (ty : Option String) (recordCount : Option Int) : Attrs :=
  (match ty with
   | some t => if t = "" then [] else [("processing.type", Scalar.str t)]
   | none => []) ++
  (match recordCount with
   | some n => [("processing.record_count", Scalar.num n)]
   | none => [])

/-- `component.process(operation, type?, recordCount?)`:
`withSpan('data.processing', operation, attrs)`. -/
def componentProcess {V E : Type} (msg : E → String) (fn : FnResult V E)
    (ty : Option String) (recordCount : Option Int) :
    List (Ev V E) × RunnerResult V E :=
  withSpan "data.processing" msg (some (processAttrs ty recordCount)) fn

/-- The exceptions recorded on the span along a trace, in order. -/
def recordedExceptions {V E : Type} (tr : List (Ev V E)) : List E :=
  tr.foldr
    (fun ev acc =>
      match ev with
      | Ev.recordException x => x :: acc
      | _ => acc)
    []

/-- C1: every invocation of `withSpan` ends its span exactly once on every
execution path — plain synchronous return, synchronous throw, fulfilment of
a returned promise, rejection of a returned promise — never zero times and
never twice. -/
theorem withSpan_ends_exactly_once {V E : Type} (name : String)
    (msg : E → String) (attributes : Option Attrs) (fn : FnResult V E) :
    endCount (withSpan name msg attributes fn).1 = 1 := by
  cases fn with
  | throws e =>
      cases attributes <;> simp [withSpan, preTrace, endCount, isEnd]
  | returns x =>
      cases x with
      | plain v =>
          cases attributes <;> simp [withSpan, preTrace, endCount, isEnd]
      | thenable s =>
          cases attributes <;> simp [withSpan, preTrace, endCount, isEnd]
      | nativePromise s =>
          cases s <;> cases attributes <;>
            simp [withSpan, preTrace, endCount, isEnd]

/-- C2: whenever the operation fails — by a synchronous throw or by a
returned promise rejecting — the span's final status is ERROR carrying the
error's message, the one and only exception recorded on the span is the
very value that was thrown or rejected, and `withSpan` re-throws
(respectively re-rejects with) that exact same value, never a substitute. -/
theorem withSpan_failure_identity {V E : Type} (name : String)
    (msg : E → String) (attributes : Option Attrs) (e : E) :
    (withSpan (V := V) name msg attributes (FnResult.throws e)).2
        = RunnerResult.syncThrow e ∧
    finalStatus (withSpan (V := V) name msg attributes (FnResult.throws e)).1
        = SpanStatus.error (msg e) ∧
    recordedExceptions (withSpan (V := V) name msg attributes (FnResult.throws e)).1
        = [e] ∧
    (withSpan (V := V) name msg attributes
        (FnResult.returns (JSValue.nativePromise (Settlement.rejected e)))).2
        = RunnerResult.asyncRejected e ∧
    finalStatus (withSpan (V := V) name msg attributes
        (FnResult.returns (JSValue.nativePromise (Settlement.rejected e)))).1
        = SpanStatus.error (msg e) ∧
    recordedExceptions (withSpan (V := V) name msg attributes
        (FnResult.returns (JSValue.nativePromise (Settlement.rejected e)))).1
        = [e] := by
  cases attributes <;>
    simp [withSpan, preTrace, finalStatus, recordedExceptions]

/-- C3: when the operation returns a native promise, the span is not ended
before that promise settles — no span-end event precedes the settlement
event, and the single span-end lies in the suffix that starts at the
settlement — control returns to the caller while the promise is still
pending, the span was started as the very first event, and on fulfilment
the final status is OK with the value passed through unchanged while on
rejection the final status is ERROR with the error's message, the error is
recorded, and the identical rejection propagates. -/
theorem withSpan_async_lifecycle {V E : Type} (name : String)
    (msg : E → String) (attributes : Option Attrs) (s : Settlement V E) :
    endCount (((withSpan name msg attributes
        (FnResult.returns (JSValue.nativePromise s))).1).takeWhile
        (fun ev => !(isSettled ev))) = 0 ∧
    endCount (((withSpan name msg attributes
        (FnResult.returns (JSValue.nativePromise s))).1).dropWhile
        (fun ev => !(isSettled ev))) = 1 ∧
    ((withSpan name msg attributes
        (FnResult.returns (JSValue.nativePromise s))).1).head?
        = some (Ev.startActiveSpan name) ∧
    Ev.returnControl ∈
      ((withSpan name msg attributes
        (FnResult.returns (JSValue.nativePromise s))).1).takeWhile
        (fun ev => !(isSettled ev)) ∧
    (match s with
     | Settlement.fulfilled v =>
         finalStatus (withSpan name msg attributes
             (FnResult.returns (JSValue.nativePromise s))).1 = SpanStatus.ok ∧
         (withSpan name msg attributes
             (FnResult.returns (JSValue.nativePromise s))).2
           = RunnerResult.asyncFulfilled v
     | Settlement.rejected e =>
         finalStatus (withSpan name msg attributes
             (FnResult.returns (JSValue.nativePromise s))).1
           = SpanStatus.error (msg e) ∧
         recordedExceptions (withSpan name msg attributes
             (FnResult.returns (JSValue.nativePromise s))).1 = [e] ∧
         (withSpan name msg attributes
             (FnResult.returns (JSValue.nativePromise s))).2
           = RunnerResult.asyncRejected e) := by
  cases s <;> cases attributes <;>
    simp [withSpan, preTrace, endCount, isEnd, isSettled, finalStatus,
      recordedExceptions, List.takeWhile, List.dropWhile]

/-- C4: when the operation completes synchronously with a plain non-promise
value, `withSpan` sets status OK, ends the span (exactly once, before
control returns to the caller) and hands back that value unchanged; in
particular `withSpan("x", () => 42)` returns `42` and the span named `"x"`
records status OK. -/
theorem withSpan_sync_value_ok :
    (∀ (V E : Type) (name : String) (msg : E → String)
        (attributes : Option Attrs) (v : V),
      (withSpan name msg attributes (FnResult.returns (JSValue.plain v))).2
          = RunnerResult.syncReturn (JSValue.plain v) ∧
      finalStatus (withSpan name msg attributes
          (FnResult.returns (JSValue.plain v))).1 = SpanStatus.ok ∧
      endCount (((withSpan name msg attributes
          (FnResult.returns (JSValue.plain v))).1).takeWhile
          (fun ev => !(isReturn ev))) = 1) ∧
    (withSpan "x" (fun e : String => e) none
        (FnResult.returns (JSValue.plain (42 : Int)))).2
      = RunnerResult.syncReturn (JSValue.plain (42 : Int)) ∧
    finalStatus (withSpan "x" (fun e : String => e) none
        (FnResult.returns (JSValue.plain (42 : Int)))).1 = SpanStatus.ok ∧
    ((withSpan "x" (fun e : String => e) none
        (FnResult.returns (JSValue.plain (42 : Int)))).1).head?
      = some (Ev.startActiveSpan "x") := by
  refine ⟨fun V E name msg attributes v => ?_, by decide, by decide, by decide⟩
  cases attributes <;>
    simp [withSpan, preTrace, endCount, isEnd, isReturn, finalStatus,
      List.takeWhile]

/-- C9: `withSpan` classifies the result as asynchronous only when it is a
native `Promise`: any other returned value — in particular a foreign
thenable — is handed back unchanged with final status OK, the span ended
(once) before control returns to the caller, and no settlement of that
thenable is ever observed by the span runner. -/
theorem withSpan_thenable_is_sync {V E : Type} (name : String)
    (msg : E → String) (attributes : Option Attrs) (s : Settlement V E) :
    (withSpan name msg attributes (FnResult.returns (JSValue.thenable s))).2
        = RunnerResult.syncReturn (JSValue.thenable s) ∧
    finalStatus (withSpan name msg attributes
        (FnResult.returns (JSValue.thenable s))).1 = SpanStatus.ok ∧
    endCount (((withSpan name msg attributes
        (FnResult.returns (JSValue.thenable s))).1).takeWhile
        (fun ev => !(isReturn ev))) = 1 ∧
    ((withSpan name msg attributes
        (FnResult.returns (JSValue.thenable s))).1).all
        (fun ev => !(isSettled ev)) = true := by
  cases attributes <;>
    simp [withSpan, preTrace, endCount, isEnd, isReturn, isSettled,
      finalStatus, List.takeWhile]

/-- C6: `api.call` with a malformed URL throws a descriptive error before
any span work proceeds — no span event is produced and the operation is not
run — while with a well-formed URL the span's attribute assignment carries
`http.method`, `http.url` and `net.peer.name`, the peer name being the
hostname parsed out of the URL. -/
theorem apiCall_url_attributes {V E : Type} (msg : E → String)
    (fn : FnResult V E) (url method : String) :
    match parseHostname url with
    | none =>
        apiCall msg fn url method
          = Except.error ("Invalid URL: " ++ url)
    | some host =>
        apiCall msg fn url method
          = Except.ok (withSpan "external.api.call" msg
              (some [("http.method", Scalar.str method),
                     ("http.url", Scalar.str url),
                     ("net.peer.name", Scalar.str host)]) fn) ∧
        Ev.setAttributes
            [("http.method", Scalar.str method),
             ("http.url", Scalar.str url),
             ("net.peer.name", Scalar.str host)]
          ∈ (withSpan (V := V) "external.api.call" msg
              (some [("http.method", Scalar.str method),
                     ("http.url", Scalar.str url),
                     ("net.peer.name", Scalar.str host)]) fn).1 := by
  cases h : parseHostname url with
  | none => simp [apiCall, h]
  | some host =>
      refine ⟨by simp [apiCall, h], ?_⟩
      cases fn with
      | throws e => simp [withSpan, preTrace]
      | returns x =>
          cases x with
          | plain v => simp [withSpan, preTrace]
          | thenable s => simp [withSpan, preTrace]
          | nativePromise s => cases s <;> simp [withSpan, preTrace]

/-- C5, counterexample to the claim as stated: the prefix `""` IS given,
yet the derived span name is the bare identifier `"f"`, not
`"" ++ "." ++ "f"` — the source guards on the truthiness of the prefix,
not on its presence. -/
theorem autoTrace_empty_prefix_cex :
    autoTraceSpanName (some "") "f" = "f" ∧
    ¬ autoTraceSpanName (some "") "f" = "" ++ "." ++ "f" := by
  decide

/-- C5 (amended): `autoTrace` derives the span name deterministically: with
a NON-EMPTY prefix the name is `prefix ++ "." ++ identifier`, with no
prefix it is the bare identifier, and an absent identifier (runtime name
`""`) falls back to the literal `"anonymous"`; the derivation is a pure
function, so the same prefix and identifier always yield the same name, and
the span `autoTrace` starts carries exactly the derived name. -/
theorem autoTrace_naming_spec {V E : Type} (msg : E → String)
    (attributes : Option Attrs) (fn : FnResult V E) (p fnName : String)
    (hp : p ≠ "") :
    autoTraceSpanName (some p) fnName = p ++ "." ++ nameOrAnonymous fnName ∧
    autoTraceSpanName none fnName = nameOrAnonymous fnName ∧
    autoTraceSpanName (some p) "" = p ++ "." ++ "anonymous" ∧
    autoTraceSpanName none "" = "anonymous" ∧
    autoTraceSpanName (some p) fnName = autoTraceSpanName (some p) fnName ∧
    ((autoTrace fnName (some p) attributes msg fn).1).head?
      = some (Ev.startActiveSpan (p ++ "." ++ nameOrAnonymous fnName)) := by
  refine ⟨by simp [autoTraceSpanName, hp],
          by simp [autoTraceSpanName],
          by simp [autoTraceSpanName, nameOrAnonymous, hp],
          by simp [autoTraceSpanName, nameOrAnonymous],
          rfl, ?_⟩
  have hname : autoTraceSpanName (some p) fnName
      = p ++ "." ++ nameOrAnonymous fnName := by
    simp [autoTraceSpanName, hp]
  cases fn with
  | throws e => simp [autoTrace, withSpan, preTrace, hname]
  | returns x =>
      cases x with
      | plain v => simp [autoTrace, withSpan, preTrace, hname]
      | thenable s => simp [autoTrace, withSpan, preTrace, hname]
      | nativePromise s =>
          cases s <;> simp [autoTrace, withSpan, preTrace, hname]

/-- Witness for `autoTrace_naming_spec` at the prefix `"app"` and the
identifier `"handler"`. -/
theorem autoTrace_naming_spec_witness :
    autoTraceSpanName (some "app") "handler"
      = "app" ++ "." ++ nameOrAnonymous "handler" :=
  (autoTrace_naming_spec (V := Int) (E := String) (fun e => e) none
      (FnResult.returns (JSValue.plain 0)) "app" "handler" (by decide)).1

/-- C7, counterexample to the claim as stated: with the supplied statement
string `""` the attribute set of `db.query` contains only `db.system` and
no `db.statement` key at all — the source guards on the truthiness of the
statement, so an empty statement string is dropped. -/
theorem dbQuery_empty_statement_cex :
    dbQueryAttrs (some "") = [("db.system", Scalar.str "postgresql")] ∧
    ¬ "db.statement" ∈ (dbQueryAttrs (some "")).map Prod.fst ∧
    Ev.setAttributes (dbQueryAttrs (some ""))
      ∈ (dbQuery (fun e : String => e)
          (FnResult.returns (JSValue.plain (0 : Int))) (some "")).1 := by
  refine ⟨rfl, by decide, ?_⟩
  simp [dbQuery, withSpan, preTrace]

/-- C7 (amended): every `db.query` span is created under the fixed name
`"db.query"` and its attribute set always contains
`db.system = "postgresql"`; when a NON-EMPTY statement string is supplied,
the set additionally contains the literal statement under `db.statement`. -/
theorem dbQuery_attrs_spec {V E : Type} (msg : E → String)
    (fn : FnResult V E) (statement : Option String) (s : String)
    (hs : s ≠ "") :
    ((dbQuery msg fn statement).1).head?
      = some (Ev.startActiveSpan "db.query") ∧
    Ev.setAttributes (dbQueryAttrs statement) ∈ (dbQuery msg fn statement).1 ∧
    ("db.system", Scalar.str "postgresql") ∈ dbQueryAttrs statement ∧
    ("db.statement", Scalar.str s) ∈ dbQueryAttrs (some s) ∧
    Ev.setAttributes (dbQueryAttrs (some s))
      ∈ (dbQuery (V := V) msg fn (some s)).1 := by
  have hgen : ∀ st : Option String,
      ((dbQuery msg fn st).1).head?
        = some (Ev.startActiveSpan "db.query") ∧
      Ev.setAttributes (dbQueryAttrs st) ∈ (dbQuery msg fn st).1 := by
    intro st
    cases fn with
    | throws e => simp [dbQuery, withSpan, preTrace]
    | returns x =>
        cases x with
        | plain v => simp [dbQuery, withSpan, preTrace]
        | thenable sp => simp [dbQuery, withSpan, preTrace]
        | nativePromise sp =>
            cases sp <;> simp [dbQuery, withSpan, preTrace]
  refine ⟨(hgen statement).1, (hgen statement).2, ?_, ?_, (hgen (some s)).2⟩
  · cases statement with
    | none => simp [dbQueryAttrs]
    | some t =>
        by_cases ht : t = "" <;> simp [dbQueryAttrs, ht]
  · simp [dbQueryAttrs, hs]

/-- Witness for `dbQuery_attrs_spec` at the statement `"SELECT 1"`. -/
theorem dbQuery_attrs_spec_witness :
    ("db.statement", Scalar.str "SELECT 1")
      ∈ dbQueryAttrs (some "SELECT 1") :=
  (dbQuery_attrs_spec (V := Int) (E := String) (fun e => e)
      (FnResult.returns (JSValue.plain 0)) (some "SELECT 1") "SELECT 1"
      (by decide)).2.2.2.1

/-- C8: when an optional parameter of `component.process` is not supplied,
the corresponding key is entirely absent from the attribute set — there is
never a placeholder entry — and the attribute set actually assigned on the
span is exactly the one so built. -/
theorem process_omits_absent_attrs {V E : Type} (msg : E → String)
    (fn : FnResult V E) (ty : Option String) (recordCount : Option Int) :
    ¬ "processing.type" ∈ (processAttrs none recordCount).map Prod.fst ∧
    ¬ "processing.record_count" ∈ (processAttrs ty none).map Prod.fst ∧
    processAttrs none none = [] ∧
    Ev.setAttributes (processAttrs ty recordCount)
      ∈ (componentProcess msg fn ty recordCount).1 := by
  refine ⟨?_, ?_, rfl, ?_⟩
  · cases recordCount <;> simp [processAttrs]
  · cases ty with
    | none => simp [processAttrs]
    | some t => by_cases ht : t = "" <;> simp [processAttrs, ht]
  · cases fn with
    | throws e => simp [componentProcess, withSpan, preTrace]
    | returns x =>
        cases x with
        | plain v => simp [componentProcess, withSpan, preTrace]
        | thenable sp => simp [componentProcess, withSpan, preTrace]
        | nativePromise sp =>
            cases sp <;> simp [componentProcess, withSpan, preTrace]

/-- C10: the two optional parameters of `component.process` are guarded by
different tests: a supplied record count of `0` is kept (the guard is
`recordCount !== undefined`), while a supplied empty-string type is dropped
(the guard is the truthiness of `type`); concretely,
`processAttrs (some "") (some 0)` is exactly the singleton
`processing.record_count = 0`. -/
theorem process_guard_asymmetry :
    processAttrs (some "") (some 0)
      = [("processing.record_count", Scalar.num 0)] ∧
    (∀ (ty : Option String) (n : Int),
      ("processing.record_count", Scalar.num n) ∈ processAttrs ty (some n)) ∧
    (∀ recordCount : Option Int,
      ¬ "processing.type"
          ∈ (processAttrs (some "") recordCount).map Prod.fst) := by
  refine ⟨by decide, ?_, ?_⟩
  · intro ty n
    cases ty with
    | none => simp [processAttrs]
    | some t => by_cases ht : t = "" <;> simp [processAttrs, ht]
  · intro recordCount
    cases recordCount <;> simp [processAttrs]

end TracePoc
